import Mathlib

/-!
# mmm: type classification (`TypeOf`) and recursive type checking (`TypeCheck`)

A shallow embedding of `types.go`.  The Go functions work on `reflect.Value`;
this file models the part of the reflection interface that `types.go` uses
(`IsValid`, `Type().Kind()`, `Len`, `Index`, `NumField`, `Field`, `Interface`
and `reflect.ValueOf`) over a tree of Go values, and transcribes `typeOf`,
`TypeOf`, `typeCheck` and `TypeCheck` on top of it.
-/

namespace mmm

/-! ## The reflection model -/

/-- The kinds of package reflect, in declaration order (`reflect.Kind`). -/
inductive Kind where
  | Invalid | Bool | Int | Int8 | Int16 | Int32 | Int64
  | Uint | Uint8 | Uint16 | Uint32 | Uint64 | Uintptr
  | Float32 | Float64 | Complex64 | Complex128
  | Array | Chan | Func | Interface | Map | Pointer | Slice | String | Struct
  | UnsafePointer
  deriving DecidableEq, Repr

/-- The textual name of a kind (the method `String` of `reflect.Kind`). -/
def KindString : Kind → String
  | .Invalid => "invalid"
  | .Bool => "bool"
  | .Int => "int"
  | .Int8 => "int8"
  | .Int16 => "int16"
  | .Int32 => "int32"
  | .Int64 => "int64"
  | .Uint => "uint"
  | .Uint8 => "uint8"
  | .Uint16 => "uint16"
  | .Uint32 => "uint32"
  | .Uint64 => "uint64"
  | .Uintptr => "uintptr"
  | .Float32 => "float32"
  | .Float64 => "float64"
  | .Complex64 => "complex64"
  | .Complex128 => "complex128"
  | .Array => "array"
  | .Chan => "chan"
  | .Func => "func"
  | .Interface => "interface"
  | .Map => "map"
  | .Pointer => "ptr"
  | .Slice => "slice"
  | .String => "string"
  | .Struct => "struct"
  | .UnsafePointer => "unsafe.Pointer"

/-- The kinds whose values hold no element or field that reflection can step
into with `Index` or `Field`: every kind except `Invalid` (no value has it),
`Array`, `Struct` and `Interface`, which have constructors of their own in
`GoVal`. -/
inductive Atom where
  | Bool | Int | Int8 | Int16 | Int32 | Int64
  | Uint | Uint8 | Uint16 | Uint32 | Uint64 | Uintptr
  | Float32 | Float64 | Complex64 | Complex128
  | Chan | Func | Map | Pointer | Slice | String
  | UnsafePointer
  deriving DecidableEq, Repr

/-- The reflect kind of an atomic value. -/
def Atom.kind : Atom → Kind
  | .Bool => .Bool
  | .Int => .Int
  | .Int8 => .Int8
  | .Int16 => .Int16
  | .Int32 => .Int32
  | .Int64 => .Int64
  | .Uint => .Uint
  | .Uint8 => .Uint8
  | .Uint16 => .Uint16
  | .Uint32 => .Uint32
  | .Uint64 => .Uint64
  | .Uintptr => .Uintptr
  | .Float32 => .Float32
  | .Float64 => .Float64
  | .Complex64 => .Complex64
  | .Complex128 => .Complex128
  | .Chan => .Chan
  | .Func => .Func
  | .Map => .Map
  | .Pointer => .Pointer
  | .Slice => .Slice
  | .String => .String
  | .UnsafePointer => .UnsafePointer

/-- A Go value as reflection sees it.
* `atom k data`: a value of the atomic kind `k`; `data` stands for its contents
  (the number, the string, the address, ...), which `types.go` never reads.
* `array elem elems`: a fixed-size array whose element type has kind `elem`
  and whose elements are `elems` (its length is `elems.length`).
* `struct fields`: a struct; each field is its value together with the flag
  saying whether the field is exported.
* `iface dyn`: a value of an interface type (it occurs as an array element or
  a struct field), holding the dynamic value `dyn`, or nothing when it is nil.
  The dynamic value of an interface is never itself of an interface type. -/
inductive GoVal where
  | atom (k : Atom) (data : Nat)
  | array (elem : Kind) (elems : List GoVal)
  | struct (fields : List (Bool × GoVal))
  | iface (dyn : Option GoVal)

/-- A value of type `interface{}`, the argument type of `TypeOf` and
`TypeCheck`: `none` is the nil interface, `some g` holds the dynamic value
`g`. -/
abbrev Any := Option GoVal

/-- The kind of a Go value. -/
def GoVal.kind : GoVal → Kind
  | .atom k _ => k.kind
  | .array _ _ => .Array
  | .struct _ => .Struct
  | .iface _ => .Interface

/-- Conversion of a Go value to `interface{}`: an interface value keeps its
dynamic value (or stays nil), any other value is boxed. -/
def GoVal.toAny : GoVal → Any
  | .iface dyn => dyn
  | g => some g

/-- A `reflect.Value`: the value it holds (`none` for the zero Value, the one
`reflect.ValueOf(nil)` returns) and the read-only flag that reflection sets on
values obtained through unexported struct fields. -/
structure Value where
  val : Option GoVal
  flagRO : Bool

/-- The panics that the reflection calls of `types.go` can raise. -/
inductive Panic where
  | wrongKind (method : String) (k : Kind)
  | indexOutOfRange (i : Nat)
  | unexportedField
  deriving DecidableEq, Repr

/-- Model of `reflect.ValueOf`. -/
def ValueOf (i : Any) : Value := ⟨i, false⟩

/-- Model of `reflect.Value.IsValid`. -/
def Value.IsValid (v : Value) : Bool := v.val.isSome

/-- Model of `reflect.Value.Kind`, which is `Type().Kind()` on a valid Value;
the zero Value has kind `Invalid`. -/
def Value.kind (v : Value) : Kind :=
  match v.val with
  | none => .Invalid
  | some g => g.kind

/-- Model of `reflect.Value.Len`, on the kinds `types.go` calls it for: the length of
an array; a panic for a value that is not an array. -/
def Value.Len (v : Value) : Except Panic Nat :=
  match v.val with
  | some (.array _ elems) => .ok elems.length
  | _ => .error (.wrongKind "Len" v.kind)

/-- Model of `reflect.Value.Index` on an array: the `i`-th element, which inherits the
read-only flag; a panic when `i` is out of range or the value is no array. -/
def Value.Index (v : Value) (i : Nat) : Except Panic Value :=
  match v.val with
  | some (.array _ elems) =>
    match elems[i]? with
    | some e => .ok ⟨some e, v.flagRO⟩
    | none => .error (.indexOutOfRange i)
  | _ => .error (.wrongKind "Index" v.kind)

/-- Model of `reflect.Value.NumField`: the number of fields of a struct; a panic for a
value that is not a struct. -/
def Value.NumField (v : Value) : Except Panic Nat :=
  match v.val with
  | some (.struct fields) => .ok fields.length
  | _ => .error (.wrongKind "NumField" v.kind)

/-- Model of `reflect.Value.Field`: the `i`-th field of a struct; the result is
read-only when the struct is or when the field is not exported. -/
def Value.Field (v : Value) (i : Nat) : Except Panic Value :=
  match v.val with
  | some (.struct fields) =>
    match fields[i]? with
    | some (exported, f) => .ok ⟨some f, v.flagRO || !exported⟩
    | none => .error (.indexOutOfRange i)
  | _ => .error (.wrongKind "Field" v.kind)

/-- Model of `reflect.Value.Interface`: the value as an `interface{}`; it panics on the
zero Value and on a value obtained through an unexported field. -/
def Value.Interface (v : Value) : Except Panic Any :=
  match v.val with
  | none => .error (.wrongKind "Interface" .Invalid)
  | some g => if v.flagRO then .error .unexportedField else .ok g.toAny

/-! ## types.go -/

/-- Modelled from the spec: the error type `Error` of the package is declared
outside `types.go`; the spec describes it as a single error kind carrying a
formatted message, with no structure beyond the message. -/
structure Error where
  msg : String
  deriving DecidableEq, Repr

/-- Source type `Type`: it represents the underlying type of an interface (`type Type int`,
with the five constants below numbered by `iota`). -/
inductive Ty where
  | TypeInvalid
  | TypeNumeric
  | TypeArray
  | TypeStruct
  | TypeUnsafePointer
  deriving DecidableEq, Repr

export Ty (TypeInvalid TypeNumeric TypeArray TypeStruct TypeUnsafePointer)

/-- The integer value of a `Type` constant (`iota`). -/
def Ty.toInt : Ty → Int
  | .TypeInvalid => 0
  | .TypeNumeric => 1
  | .TypeArray => 2
  | .TypeStruct => 3
  | .TypeUnsafePointer => 4

/-- The text that `fmt.Sprintf("%#v", s)` produces for a string `s` made of
plain printable characters (every kind name is): `s` in double quotes. -/
def sharpVString (s : String) : String := "\"" ++ s ++ "\""

/-- The text that `fmt.Sprintf("%#v", v)` produces for the zero
`reflect.Value`. -/
def sharpVInvalidValue : String := "<invalid reflect.Value>"

/-- Source `typeOf`. -/
def typeOf (v : Value) : Ty × Option Error :=
  if !v.IsValid then
    (TypeInvalid, some (Error.mk ("unsuppported type: " ++ sharpVInvalidValue)))
  else
    match v.kind with
    | .Bool => (TypeNumeric, none)
    | .Int => (TypeNumeric, none)
    | .Int8 => (TypeNumeric, none)
    | .Int16 => (TypeNumeric, none)
    | .Int32 => (TypeNumeric, none)
    | .Int64 => (TypeNumeric, none)
    | .Uint => (TypeNumeric, none)
    | .Uint8 => (TypeNumeric, none)
    | .Uint16 => (TypeNumeric, none)
    | .Uint32 => (TypeNumeric, none)
    | .Uint64 => (TypeNumeric, none)
    | .Uintptr => (TypeNumeric, none)
    | .Float32 => (TypeNumeric, none)
    | .Float64 => (TypeNumeric, none)
    | .Complex64 => (TypeNumeric, none)
    | .Complex128 => (TypeNumeric, none)
    | .Array => (TypeArray, none)
    | .Struct => (TypeStruct, none)
    | .UnsafePointer => (TypeUnsafePointer, none)
    | k => (TypeInvalid, some (Error.mk ("unsuppported type: " ++ sharpVString (KindString k))))

/-- Source `TypeOf`: the underlying type of an interface. -/
def TypeOf (v : Any) : Ty × Option Error :=
  typeOf (ValueOf v)

mutual

/-- Source `TypeCheck`: recursively checks the underlying types of `v` and
returns an error if one or more of those types are illegal. -/
def TypeCheck (v : Any) : Except Panic (Option Error) :=
  typeCheck (ValueOf v)
termination_by (sizeOf v, 2, 0)
decreasing_by
  simp [ValueOf, Prod.lex_def]

/-- Source `typeCheck`. -/
def typeCheck (v : Value) : Except Panic (Option Error) :=
  match typeOf v with
  | (_, some _) => .ok none
  | (t, none) =>
    -- t == TypeArray && v.Len() > 0
    let cond : Except Panic Bool :=
      if t = TypeArray then
        match v.Len with
        | .error p => .error p
        | .ok n => .ok (decide (n > 0))
      else .ok false
    match cond with
    | .error p => .error p
    | .ok true =>
      match h₁ : v.Index 0 with
      | .error p => .error p
      | .ok e =>
        match h₂ : e.Interface with
        | .error p => .error p
        | .ok a => TypeCheck a
    | .ok false =>
      if t = TypeStruct then
        match v.NumField with
        | .error p => .error p
        | .ok fields => typeCheckFields v fields 0
      else .ok none
termination_by (sizeOf v.val, 1, 0)
decreasing_by
  · have hlt : sizeOf a < sizeOf v.val := by
      obtain ⟨val, ro⟩ := v
      rcases val with _ | g
      · simp [Value.Index] at h₁
      · cases g with
        | array k elems =>
          simp only [Value.Index] at h₁
          cases hg : elems[0]? with
          | none => simp [hg] at h₁
          | some x =>
            simp only [hg, Except.ok.injEq] at h₁
            subst h₁
            simp only [Value.Interface] at h₂
            split at h₂
            · simp at h₂
            · simp only [Except.ok.injEq] at h₂
              subst h₂
              have h1 := List.sizeOf_lt_of_mem (List.getElem?_mem hg)
              have h2 : sizeOf x.toAny ≤ 1 + sizeOf x := by
                cases x <;> simp [GoVal.toAny]
                omega
              simp only [Option.some.sizeOf_spec, GoVal.array.sizeOf_spec]
              omega
        | atom _ _ => simp [Value.Index] at h₁
        | struct _ => simp [Value.Index] at h₁
        | iface _ => simp [Value.Index] at h₁
    simp [Prod.lex_def]
    omega
  · simp [Prod.lex_def]

/-- The loop `for i := 0; i < fields; i++` of source `typeCheck`, from index
`i` on, followed by the final `return nil`. -/
def typeCheckFields (v : Value) (fields i : Nat) : Except Panic (Option Error) :=
  if i < fields then
    match h₁ : v.Field i with
    | .error p => .error p
    | .ok f =>
      match h₂ : f.Interface with
      | .error p => .error p
      | .ok a =>
        match TypeCheck a with
        | .error p => .error p
        | .ok (some err) => .ok (some err)
        | .ok none => typeCheckFields v fields (i + 1)
  else .ok none
termination_by (sizeOf v.val, 0, fields - i)
decreasing_by
  · have hlt : sizeOf a < sizeOf v.val := by
      obtain ⟨val, ro⟩ := v
      rcases val with _ | g
      · simp [Value.Field] at h₁
      · cases g with
        | struct fs =>
          simp only [Value.Field] at h₁
          cases hg : fs[i]? with
          | none => simp [hg] at h₁
          | some x =>
            obtain ⟨ex, x⟩ := x
            simp only [hg, Except.ok.injEq] at h₁
            subst h₁
            simp only [Value.Interface] at h₂
            split at h₂
            · simp at h₂
            · simp only [Except.ok.injEq] at h₂
              subst h₂
              have h1 := List.sizeOf_lt_of_mem (List.getElem?_mem hg)
              have h2 : sizeOf x.toAny ≤ 1 + sizeOf x := by
                cases x <;> simp [GoVal.toAny]
                omega
              simp only [Prod.mk.sizeOf_spec] at h1
              simp only [Option.some.sizeOf_spec, GoVal.struct.sizeOf_spec]
              omega
        | atom _ _ => simp [Value.Field] at h₁
        | array _ _ => simp [Value.Field] at h₁
        | iface _ => simp [Value.Field] at h₁
    simp [Prod.lex_def]
    omega
  · simp [Prod.lex_def]
    omega

end

/-! ## The body of `typeCheck` with its recursive calls made explicit

The same code as `typeCheck` and its field loop, except that the two calls
`TypeCheck(...)` are made through the parameter `call`.  A statement that
holds for every `call` does not depend on what the recursive calls return;
`typeCheck v = typeCheckWith TypeCheck v` is proved below. -/

/-- The loop `for i := 0; i < fields; i++` of source `typeCheck`, from index
`i` on, with the call `TypeCheck(v.Field(i).Interface())` made through
`call`. -/
def typeCheckFieldsWith (call : Any → Except Panic (Option Error)) (v : Value)
    (fields i : Nat) : Except Panic (Option Error) :=
  if i < fields then
    match v.Field i with
    | .error p => .error p
    | .ok f =>
      match f.Interface with
      | .error p => .error p
      | .ok a =>
        match call a with
        | .error p => .error p
        | .ok (some err) => .ok (some err)
        | .ok none => typeCheckFieldsWith call v fields (i + 1)
  else .ok none
termination_by fields - i

/-- The body of source `typeCheck`, with the calls `TypeCheck(...)` made
through `call`. -/
def typeCheckWith (call : Any → Except Panic (Option Error)) (v : Value) :
    Except Panic (Option Error) :=
  match typeOf v with
  | (_, some _) => .ok none
  | (t, none) =>
    let cond : Except Panic Bool :=
      if t = TypeArray then
        match v.Len with
        | .error p => .error p
        | .ok n => .ok (decide (n > 0))
      else .ok false
    match cond with
    | .error p => .error p
    | .ok true =>
      match v.Index 0 with
      | .error p => .error p
      | .ok e =>
        match e.Interface with
        | .error p => .error p
        | .ok a => call a
    | .ok false =>
      if t = TypeStruct then
        match v.NumField with
        | .error p => .error p
        | .ok fields => typeCheckFieldsWith call v fields 0
      else .ok none

/-- The sub-values of a Value that source `typeCheck` steps into, each as the
`interface{}` that `Interface()` makes of it: element 0 of a non-empty array,
and the fields of a struct. -/
def subValues (v : Value) : List Any :=
  match v.val with
  | some (.array _ (e :: _)) => [e.toAny]
  | some (.struct fields) => fields.map (fun x => x.2.toAny)
  | _ => []

mutual

/-- Every struct field that the traversal of `TypeCheck` reaches from the
Go value `g` is exported: the traversal goes into element 0 of an array, into
every field of a struct and into the dynamic value of an interface-typed
element or field. -/
def GoVal.reachedExported : GoVal → Bool
  | .atom _ _ => true
  | .array _ [] => true
  | .array _ (e :: _) => e.reachedExported
  | .struct fields => fieldsReachedExported fields
  | .iface none => true
  | .iface (some d) => d.reachedExported

/-- Every field of the list is exported, and so is every struct field reached
from it. -/
def fieldsReachedExported : List (Bool × GoVal) → Bool
  | [] => true
  | (exported, f) :: rest => exported && f.reachedExported && fieldsReachedExported rest

end

/-- Every struct field that the traversal of `TypeCheck` reaches from the
`interface{}` value `a` is exported. -/
def reachedExported : Any → Bool
  | none => true
  | some g => g.reachedExported

/-- Specification of the struct case, after the words of the spec (it is not
taken from the source): given the results of the check on the fields, in
declaration order, the first result that is not nil; nil when every result is
nil. -/
def firstFailing : List (Except Panic (Option Error)) → Except Panic (Option Error)
  | [] => .ok none
  | .ok none :: rest => firstFailing rest
  | r :: _ => r

/-! ## Unfolding equations -/

/-- The body of `typeCheck`, as one equation. -/
theorem typeCheck_eq (v : Value) :
    typeCheck v =
      match typeOf v with
      | (_, some _) => .ok none
      | (t, none) =>
        match (if t = TypeArray then
            (match v.Len with
              | .error p => (.error p : Except Panic Bool)
              | .ok n => .ok (decide (n > 0)))
          else .ok false) with
        | .error p => .error p
        | .ok true =>
          match v.Index 0 with
          | .error p => .error p
          | .ok e =>
            match e.Interface with
            | .error p => .error p
            | .ok a => TypeCheck a
        | .ok false =>
          if t = TypeStruct then
            match v.NumField with
            | .error p => .error p
            | .ok fields => typeCheckFields v fields 0
          else .ok none := by
  rw [typeCheck]
  split
  · rfl
  · dsimp only
    split
    · rfl
    · split
      · rename_i h; simp [h]
      · rename_i e h
        simp only [h]
        split
        · rename_i h2; simp [h2]
        · rename_i h2; simp [h2]
    · rfl

/-- The body of `typeCheckFields`, as one equation. -/
theorem typeCheckFields_eq (v : Value) (fields i : Nat) :
    typeCheckFields v fields i =
      if i < fields then
        match v.Field i with
        | .error p => .error p
        | .ok f =>
          match f.Interface with
          | .error p => .error p
          | .ok a =>
            match TypeCheck a with
            | .error p => .error p
            | .ok (some err) => .ok (some err)
            | .ok none => typeCheckFields v fields (i + 1)
      else .ok none := by
  rw [typeCheckFields]
  split
  · split
    · rename_i h; simp [h]
    · rename_i e h
      simp only [h]
      split
      · rename_i h2; simp [h2]
      · rename_i h2; simp [h2]
  · rfl

theorem TypeCheck_eq (a : Any) : TypeCheck a = typeCheck (ValueOf a) := by
  rw [TypeCheck]

/-! ## The classifier -/

/-- The classification of a valid Value is decided by its kind. -/
theorem typeOf_some (g : GoVal) (ro : Bool) :
    typeOf ⟨some g, ro⟩ =
      match g.kind with
      | .Bool | .Int | .Int8 | .Int16 | .Int32 | .Int64
      | .Uint | .Uint8 | .Uint16 | .Uint32 | .Uint64 | .Uintptr
      | .Float32 | .Float64 | .Complex64 | .Complex128 => (TypeNumeric, none)
      | .Array => (TypeArray, none)
      | .Struct => (TypeStruct, none)
      | .UnsafePointer => (TypeUnsafePointer, none)
      | k => (TypeInvalid, some (Error.mk ("unsuppported type: " ++ sharpVString (KindString k)))) := by
  simp only [typeOf, Value.IsValid, Value.kind, Option.isSome_some, Bool.not_true,
    Bool.false_eq_true, if_false]

theorem typeOf_none (ro : Bool) :
    typeOf ⟨none, ro⟩ =
      (TypeInvalid, some (Error.mk "unsuppported type: <invalid reflect.Value>")) := by
  rfl

/-- C1: for every value whose kind is bool, one of the signed or unsigned
integer kinds, uintptr, a float kind or a complex kind, `TypeOf` returns
`TypeNumeric` and a nil error. -/
theorem TypeOf_numeric (a : Any)
    (h : (ValueOf a).kind ∈ [Kind.Bool, Kind.Int, Kind.Int8, Kind.Int16, Kind.Int32, Kind.Int64,
      Kind.Uint, Kind.Uint8, Kind.Uint16, Kind.Uint32, Kind.Uint64, Kind.Uintptr,
      Kind.Float32, Kind.Float64, Kind.Complex64, Kind.Complex128]) :
    TypeOf a = (TypeNumeric, none) := by
  rcases a with _ | g
  · simp [ValueOf, Value.kind] at h
  · simp only [ValueOf, Value.kind] at h
    simp only [TypeOf, ValueOf, typeOf_some]
    generalize g.kind = k at h
    cases k <;> first | rfl | simp at h

theorem TypeOf_numeric_witness :
    (ValueOf (some (.atom .Int16 7))).kind ∈ [Kind.Bool, Kind.Int, Kind.Int8, Kind.Int16,
      Kind.Int32, Kind.Int64, Kind.Uint, Kind.Uint8, Kind.Uint16, Kind.Uint32, Kind.Uint64,
      Kind.Uintptr, Kind.Float32, Kind.Float64, Kind.Complex64, Kind.Complex128] ∧
    TypeOf (some (.atom .Int16 7)) = (TypeNumeric, none) :=
  ⟨by decide, TypeOf_numeric _ (by decide)⟩

/-- C2: for every value of kind unsafe pointer, `TypeOf` returns
`TypeUnsafePointer` and a nil error. -/
theorem TypeOf_unsafePointer (a : Any) (h : (ValueOf a).kind = Kind.UnsafePointer) :
    TypeOf a = (TypeUnsafePointer, none) := by
  rcases a with _ | g
  · simp [ValueOf, Value.kind] at h
  · simp only [ValueOf, Value.kind] at h
    simp only [TypeOf, ValueOf, typeOf_some, h]

theorem TypeOf_unsafePointer_witness :
    (ValueOf (some (.atom .UnsafePointer 4096))).kind = Kind.UnsafePointer ∧
    TypeOf (some (.atom .UnsafePointer 4096)) = (TypeUnsafePointer, none) :=
  ⟨by decide, TypeOf_unsafePointer _ (by decide)⟩

/-- C3: for every array, whatever the kind of its element type, its length
and its elements, `TypeOf` returns `TypeArray` and a nil error; for every
struct, whatever its fields (none included), `TypeOf` returns `TypeStruct` and
a nil error.  The elements and fields are universally quantified: the result
does not depend on them. -/
theorem TypeOf_array_struct :
    (∀ (elem : Kind) (elems : List GoVal),
      TypeOf (some (.array elem elems)) = (TypeArray, none)) ∧
    (∀ fields : List (Bool × GoVal),
      TypeOf (some (.struct fields)) = (TypeStruct, none)) :=
  ⟨fun _ _ => rfl, fun _ => rfl⟩

/-- C4: for every valid value whose kind is outside the accepted set, the
kind is one of chan, func, interface, map, pointer, slice and string, and
`TypeOf` returns `TypeInvalid` together with an error whose message is
`unsuppported type: ` followed by the quoted name of the kind; in particular
the message contains that name. -/
theorem TypeOf_unsupported (a : Any) (hv : (ValueOf a).IsValid = true)
    (hk : (ValueOf a).kind ∉ [Kind.Bool, Kind.Int, Kind.Int8, Kind.Int16, Kind.Int32,
      Kind.Int64, Kind.Uint, Kind.Uint8, Kind.Uint16, Kind.Uint32, Kind.Uint64, Kind.Uintptr,
      Kind.Float32, Kind.Float64, Kind.Complex64, Kind.Complex128,
      Kind.Array, Kind.Struct, Kind.UnsafePointer]) :
    (ValueOf a).kind ∈ [Kind.Chan, Kind.Func, Kind.Interface, Kind.Map, Kind.Pointer,
      Kind.Slice, Kind.String] ∧
    ∃ e : Error, TypeOf a = (TypeInvalid, some e) ∧
      e.msg = "unsuppported type: \"" ++ KindString (ValueOf a).kind ++ "\"" ∧
      ∃ pre post : String, e.msg = pre ++ KindString (ValueOf a).kind ++ post := by
  rcases a with _ | g
  · simp [ValueOf, Value.IsValid] at hv
  · simp only [ValueOf, Value.kind] at hk ⊢
    simp only [TypeOf, ValueOf, typeOf_some]
    have hne : g.kind ≠ Kind.Invalid := by
      cases g with
      | atom k _ => cases k <;> simp [GoVal.kind, Atom.kind]
      | array _ _ => simp [GoVal.kind]
      | struct _ => simp [GoVal.kind]
      | iface _ => simp [GoVal.kind]
    generalize g.kind = k at hk hne
    cases k <;> first
      | exact absurd rfl hne
      | (exfalso; simp at hk; done)
      | exact ⟨by decide, _, rfl, by decide, "unsuppported type: \"", "\"", by decide⟩

theorem TypeOf_unsupported_witness :
    (ValueOf (some (.atom .Slice 3))).IsValid = true ∧
    (ValueOf (some (.atom .Slice 3))).kind ∉ [Kind.Bool, Kind.Int, Kind.Int8, Kind.Int16,
      Kind.Int32, Kind.Int64, Kind.Uint, Kind.Uint8, Kind.Uint16, Kind.Uint32, Kind.Uint64,
      Kind.Uintptr, Kind.Float32, Kind.Float64, Kind.Complex64, Kind.Complex128,
      Kind.Array, Kind.Struct, Kind.UnsafePointer] ∧
    ((ValueOf (some (.atom .Slice 3))).kind ∈ [Kind.Chan, Kind.Func, Kind.Interface, Kind.Map,
      Kind.Pointer, Kind.Slice, Kind.String] ∧
    ∃ e : Error, TypeOf (some (.atom .Slice 3)) = (TypeInvalid, some e) ∧
      e.msg = "unsuppported type: \"" ++ KindString (ValueOf (some (.atom .Slice 3))).kind
        ++ "\"" ∧
      ∃ pre post : String,
        e.msg = pre ++ KindString (ValueOf (some (.atom .Slice 3))).kind ++ post) :=
  ⟨by decide, by decide, TypeOf_unsupported _ (by decide) (by decide)⟩

/-- C5: on the nil interface, whose reflect Value is the zero Value, `TypeOf`
returns `TypeInvalid` together with a non-nil error, and so does `typeOf` on
every invalid Value.  The error is the one of the validity guard: its message
differs from the message that the kind switch produces for any kind (the kind
`Invalid` included), so no kind has been inspected. -/
theorem TypeOf_nil :
    TypeOf none =
      (TypeInvalid, some (Error.mk "unsuppported type: <invalid reflect.Value>")) ∧
    (∀ ro : Bool, typeOf ⟨none, ro⟩ = TypeOf none) ∧
    (∀ k : Kind, (TypeOf none).2 ≠
      some (Error.mk ("unsuppported type: " ++ sharpVString (KindString k)))) := by
  refine ⟨rfl, fun _ => rfl, fun k => ?_⟩
  cases k <;> decide

/-- C6: for every input, `TypeOf` returns a non-nil error exactly when the
category it returns is `TypeInvalid`, and it returns a nil error exactly when
the kind is one of the numeric kinds, array, struct or unsafe pointer. -/
theorem TypeOf_error_iff_invalid (a : Any) :
    ((TypeOf a).2 ≠ none ↔ (TypeOf a).1 = TypeInvalid) ∧
    ((TypeOf a).2 = none ↔
      (ValueOf a).kind ∈ [Kind.Bool, Kind.Int, Kind.Int8, Kind.Int16, Kind.Int32,
        Kind.Int64, Kind.Uint, Kind.Uint8, Kind.Uint16, Kind.Uint32, Kind.Uint64, Kind.Uintptr,
        Kind.Float32, Kind.Float64, Kind.Complex64, Kind.Complex128,
        Kind.Array, Kind.Struct, Kind.UnsafePointer]) := by
  rcases a with _ | g
  · simp [TypeOf, ValueOf, typeOf_none, Value.kind]
  · simp only [TypeOf, ValueOf, typeOf_some, Value.kind]
    generalize g.kind = k
    cases k <;> simp

/-- C7: `TypeOf` is a function of the kind only: two valid values of the same
kind, whatever their contents, lengths, element types or fields, get the same
category and the same error (the same message included). -/
theorem TypeOf_kind_only (a b : Any) (ha : (ValueOf a).IsValid = true)
    (hb : (ValueOf b).IsValid = true) (h : (ValueOf a).kind = (ValueOf b).kind) :
    TypeOf a = TypeOf b := by
  rcases a with _ | g
  · simp [ValueOf, Value.IsValid] at ha
  · rcases b with _ | g2
    · simp [ValueOf, Value.IsValid] at hb
    · simp only [ValueOf, Value.kind] at h
      simp only [TypeOf, ValueOf, typeOf_some, h]

theorem TypeOf_kind_only_witness :
    (ValueOf (some (.array .Int [.atom .Int 1, .atom .Int 2]))).IsValid = true ∧
    (ValueOf (some (.array .String []))).IsValid = true ∧
    (ValueOf (some (.array .Int [.atom .Int 1, .atom .Int 2]))).kind =
      (ValueOf (some (.array .String []))).kind ∧
    TypeOf (some (.array .Int [.atom .Int 1, .atom .Int 2])) =
      TypeOf (some (.array .String [])) :=
  ⟨by decide, by decide, by decide, TypeOf_kind_only _ _ (by decide) (by decide) (by decide)⟩

/-! ## The recursive check -/

theorem sizeOf_toAny_le (g : GoVal) : sizeOf g.toAny ≤ 1 + sizeOf g := by
  cases g <;> simp [GoVal.toAny]
  omega

/-- The value that `typeCheck` recurses on in an array is strictly smaller
than the array. -/
theorem sizeOf_Index_Interface {v e : Value} {i : Nat} {a : Any}
    (h₁ : v.Index i = .ok e) (h₂ : e.Interface = .ok a) : sizeOf a < sizeOf v.val := by
  obtain ⟨val, ro⟩ := v
  rcases val with _ | g
  · simp [Value.Index] at h₁
  · cases g with
    | array k elems =>
      simp only [Value.Index] at h₁
      cases hg : elems[i]? with
      | none => simp [hg] at h₁
      | some x =>
        simp only [hg, Except.ok.injEq] at h₁
        subst h₁
        simp only [Value.Interface] at h₂
        split at h₂
        · simp at h₂
        · simp only [Except.ok.injEq] at h₂
          subst h₂
          have h1 := List.sizeOf_lt_of_mem (List.getElem?_mem hg)
          have h2 := sizeOf_toAny_le x
          simp only [Option.some.sizeOf_spec, GoVal.array.sizeOf_spec]
          omega
    | atom _ _ => simp [Value.Index] at h₁
    | struct _ => simp [Value.Index] at h₁
    | iface _ => simp [Value.Index] at h₁

/-- The value that `typeCheck` recurses on in a struct is strictly smaller
than the struct. -/
theorem sizeOf_Field_Interface {v f : Value} {i : Nat} {a : Any}
    (h₁ : v.Field i = .ok f) (h₂ : f.Interface = .ok a) : sizeOf a < sizeOf v.val := by
  obtain ⟨val, ro⟩ := v
  rcases val with _ | g
  · simp [Value.Field] at h₁
  · cases g with
    | struct fs =>
      simp only [Value.Field] at h₁
      cases hg : fs[i]? with
      | none => simp [hg] at h₁
      | some x =>
        obtain ⟨ex, x⟩ := x
        simp only [hg, Except.ok.injEq] at h₁
        subst h₁
        simp only [Value.Interface] at h₂
        split at h₂
        · simp at h₂
        · simp only [Except.ok.injEq] at h₂
          subst h₂
          have h1 := List.sizeOf_lt_of_mem (List.getElem?_mem hg)
          have h2 := sizeOf_toAny_le x
          simp only [Prod.mk.sizeOf_spec] at h1
          simp only [Option.some.sizeOf_spec, GoVal.struct.sizeOf_spec]
          omega
    | atom _ _ => simp [Value.Field] at h₁
    | array _ _ => simp [Value.Field] at h₁
    | iface _ => simp [Value.Field] at h₁

/-- The field loop returns no error when no recursive call on a smaller value
does. -/
theorem typeCheckFields_ne_error (v : Value)
    (ih : ∀ a : Any, sizeOf a < sizeOf v.val → ∀ e : Error, TypeCheck a ≠ .ok (some e))
    (n i : Nat) (e : Error) : typeCheckFields v n i ≠ .ok (some e) := by
  generalize h : n - i = k
  induction k generalizing i with
  | zero =>
    rw [typeCheckFields_eq]
    have : ¬ i < n := by omega
    simp [this]
  | succ k ihk =>
    rw [typeCheckFields_eq]
    split
    · split
      · simp
      · rename_i f hf
        split
        · simp
        · rename_i a ha
          split
          · simp
          · rename_i err herr
            exact absurd herr (ih a (sizeOf_Field_Interface hf ha) err)
          · exact ihk (i + 1) (by omega)
    · simp

/-- No return of `TypeCheck` carries an error: a classifier failure is turned
into nil at every node, and every other return is nil or the result of a
recursive call. -/
theorem TypeCheck_ne_error (a : Any) (e : Error) : TypeCheck a ≠ .ok (some e) := by
  generalize hn : sizeOf a = n
  induction n using Nat.strong_induction_on generalizing a e with
  | _ n ih =>
    subst hn
    rw [TypeCheck_eq, typeCheck_eq]
    split
    · simp
    · split
      · simp
      · split
        · simp
        · rename_i x hx
          split
          · simp
          · rename_i a2 ha2
            exact ih _ (sizeOf_Index_Interface hx ha2) a2 e rfl
      · split
        · split
          · simp
          · exact typeCheckFields_ne_error _ (fun a2 h e2 => ih _ h a2 e2 rfl) _ _ _
        · simp

/-- An atomic value passes `TypeCheck`, whatever its kind. -/
theorem TypeCheck_atom (k : Atom) (d : Nat) : TypeCheck (some (.atom k d)) = .ok none := by
  rw [TypeCheck_eq, typeCheck_eq]
  cases k <;> simp [ValueOf, typeOf_some, GoVal.kind, Atom.kind]

/-- On a struct, `TypeCheck` runs the field loop from index 0. -/
theorem TypeCheck_struct (fs : List (Bool × GoVal)) :
    TypeCheck (some (.struct fs)) =
      typeCheckFields (ValueOf (some (.struct fs))) fs.length 0 := by
  rw [TypeCheck_eq, typeCheck_eq]
  simp [ValueOf, typeOf_some, GoVal.kind, Value.NumField]

/-- A struct of two exported atomic fields passes `TypeCheck`, whatever the
kinds of the two fields. -/
theorem TypeCheck_struct_two_atoms (k₁ k₂ : Atom) (d₁ d₂ : Nat) :
    TypeCheck (some (.struct [(true, .atom k₁ d₁), (true, .atom k₂ d₂)])) = .ok none := by
  rw [TypeCheck_struct]
  rw [typeCheckFields_eq]
  simp [ValueOf, Value.Field, Value.Interface, GoVal.toAny, TypeCheck_atom]
  rw [typeCheckFields_eq]
  simp [ValueOf, Value.Field, Value.Interface, GoVal.toAny, TypeCheck_atom]
  rw [typeCheckFields_eq]
  simp

/-- A struct whose only field is exported and atomic passes `TypeCheck`. -/
theorem TypeCheck_struct_one_atom (k : Atom) (d : Nat) :
    TypeCheck (some (.struct [(true, .atom k d)])) = .ok none := by
  rw [TypeCheck_struct]
  rw [typeCheckFields_eq]
  simp [ValueOf, Value.Field, Value.Interface, GoVal.toAny, TypeCheck_atom]
  rw [typeCheckFields_eq]
  simp

/-- C8 (the code departs from it): `TypeCheck` returns nil on a string, which
`TypeOf` rejects, and on a struct whose only field is a string. -/
theorem TypeCheck_illegal_type_returns_nil :
    (TypeOf (some (.atom .String 0))).2 ≠ none ∧
    TypeCheck (some (.atom .String 0)) = .ok none ∧
    TypeCheck (some (.struct [(true, .atom .String 0)])) = .ok none :=
  ⟨by decide, TypeCheck_atom _ _, TypeCheck_struct_one_atom _ _⟩

/-- C9 (the code departs from it): `TypeCheck` returns nil on a struct with
an int field followed by a string field, and on a struct with a string field
followed by an int field, although `TypeOf` rejects the string. -/
theorem TypeCheck_numeric_unsupported_fields_nil :
    (TypeOf (some (.atom .Int 1))) = (TypeNumeric, none) ∧
    (TypeOf (some (.atom .String 0))).2 ≠ none ∧
    TypeCheck (some (.struct [(true, .atom .Int 1), (true, .atom .String 0)])) = .ok none ∧
    TypeCheck (some (.struct [(true, .atom .String 0), (true, .atom .Int 1)])) = .ok none :=
  ⟨by decide, by decide, TypeCheck_struct_two_atoms _ _ _ _, TypeCheck_struct_two_atoms _ _ _ _⟩

/-- C10 (the code departs from it): `TypeCheck` returns nil on a struct whose
only field is a struct whose only field is a string. -/
theorem TypeCheck_nested_struct_unsupported_nil :
    (TypeOf (some (.atom .String 0))).2 ≠ none ∧
    TypeCheck (some (.struct [(true, .struct [(true, .atom .String 0)])])) = .ok none := by
  refine ⟨by decide, ?_⟩
  rw [TypeCheck_struct]
  rw [typeCheckFields_eq]
  simp [ValueOf, Value.Field, Value.Interface, GoVal.toAny, TypeCheck_struct_one_atom]
  rw [typeCheckFields_eq]
  simp

/-! ## The recursive calls made explicit -/

/-- The body of `typeCheckFieldsWith`, as one equation. -/
theorem typeCheckFieldsWith_eq (call : Any → Except Panic (Option Error)) (v : Value)
    (fields i : Nat) :
    typeCheckFieldsWith call v fields i =
      if i < fields then
        match v.Field i with
        | .error p => .error p
        | .ok f =>
          match f.Interface with
          | .error p => .error p
          | .ok a =>
            match call a with
            | .error p => .error p
            | .ok (some err) => .ok (some err)
            | .ok none => typeCheckFieldsWith call v fields (i + 1)
      else .ok none := by
  rw [typeCheckFieldsWith]

/-- The field loop of `typeCheck` is `typeCheckFieldsWith` with `TypeCheck`
for the recursive call. -/
theorem typeCheckFields_eq_With (v : Value) (n i : Nat) :
    typeCheckFields v n i = typeCheckFieldsWith TypeCheck v n i := by
  generalize h : n - i = k
  induction k generalizing i with
  | zero =>
    rw [typeCheckFields_eq, typeCheckFieldsWith_eq]
    have : ¬ i < n := by omega
    simp [this]
  | succ k ih =>
    rw [typeCheckFields_eq, typeCheckFieldsWith_eq, ih (i + 1) (by omega)]

/-- The function `typeCheck` is `typeCheckWith` with `TypeCheck` for the
recursive call. -/
theorem typeCheck_eq_With (v : Value) : typeCheck v = typeCheckWith TypeCheck v := by
  rw [typeCheck_eq, typeCheckWith]
  simp only [typeCheckFields_eq_With]

theorem typeCheckWith_of_typeOf_error (call : Any → Except Panic (Option Error)) {v : Value}
    {t : Ty} {e : Error} (h : typeOf v = (t, some e)) : typeCheckWith call v = .ok none := by
  rw [typeCheckWith, h]

theorem typeCheckWith_atom (call : Any → Except Panic (Option Error)) (k : Atom) (d : Nat)
    (ro : Bool) : typeCheckWith call ⟨some (.atom k d), ro⟩ = .ok none := by
  rw [typeCheckWith]
  cases k <;> simp [typeOf_some, GoVal.kind, Atom.kind]

theorem typeCheckWith_array_nil (call : Any → Except Panic (Option Error)) (k : Kind)
    (ro : Bool) : typeCheckWith call ⟨some (.array k []), ro⟩ = .ok none := by
  rw [typeCheckWith]
  simp [typeOf_some, GoVal.kind, Value.Len]

theorem typeCheckWith_array_cons_ro (call : Any → Except Panic (Option Error)) (k : Kind)
    (e : GoVal) (es : List GoVal) (ro : Bool) :
    typeCheckWith call ⟨some (.array k (e :: es)), ro⟩ =
      if ro = true then .error Panic.unexportedField else call e.toAny := by
  rw [typeCheckWith]
  cases ro <;> simp [typeOf_some, GoVal.kind, Value.Len, Value.Index, Value.Interface]

theorem typeCheckWith_array_cons (call : Any → Except Panic (Option Error)) (k : Kind)
    (e : GoVal) (es : List GoVal) :
    typeCheckWith call (ValueOf (some (.array k (e :: es)))) = call e.toAny := by
  simp [ValueOf, typeCheckWith_array_cons_ro]

theorem typeCheckWith_struct (call : Any → Except Panic (Option Error))
    (fs : List (Bool × GoVal)) (ro : Bool) :
    typeCheckWith call ⟨some (.struct fs), ro⟩ =
      typeCheckFieldsWith call ⟨some (.struct fs), ro⟩ fs.length 0 := by
  rw [typeCheckWith]
  simp [typeOf_some, GoVal.kind, Value.NumField]

/-- The field loop, started behind the fields `pre`, returns the first result
that is not nil among the remaining fields, where the result of a field read
through a read-only struct or of an unexported field is the panic of
`Interface()`. -/
theorem typeCheckFieldsWith_append_ro (call : Any → Except Panic (Option Error))
    (pre rest : List (Bool × GoVal)) (ro : Bool) :
    typeCheckFieldsWith call ⟨some (.struct (pre ++ rest)), ro⟩ (pre ++ rest).length
        pre.length =
      firstFailing (rest.map (fun x =>
        if (ro || !x.1) = true then .error Panic.unexportedField else call x.2.toAny)) := by
  induction rest generalizing pre with
  | nil =>
    rw [typeCheckFieldsWith_eq]
    simp [firstFailing]
  | cons x rest ih =>
    obtain ⟨ex, f⟩ := x
    have hstep := ih (pre ++ [(ex, f)])
    simp only [List.append_assoc, List.singleton_append, List.length_append,
      List.length_singleton] at hstep
    rw [← List.length_append] at hstep
    rw [typeCheckFieldsWith_eq]
    have hlt : pre.length < (pre ++ (ex, f) :: rest).length := by simp
    have hget : (pre ++ (ex, f) :: rest)[pre.length]? = some (ex, f) := by
      rw [List.getElem?_append_right (Nat.le_refl _)]
      simp
    simp only [hlt, if_true, Value.Field, hget, List.map_cons, Value.Interface]
    by_cases hro : (ro || !ex) = true
    · simp [hro, firstFailing]
    · simp only [hro, if_false, Bool.false_eq_true]
      cases hc : call f.toAny with
      | error p => simp [hc, firstFailing]
      | ok r =>
        cases r with
        | some err => simp [hc, firstFailing]
        | none =>
          simp only [hc, firstFailing]
          exact hstep

/-- On a struct, `typeCheckWith` returns the first result that is not nil
among the results of the fields. -/
theorem typeCheckWith_struct_firstFailing (call : Any → Except Panic (Option Error))
    (fs : List (Bool × GoVal)) (ro : Bool) :
    typeCheckWith call ⟨some (.struct fs), ro⟩ =
      firstFailing (fs.map (fun x =>
        if (ro || !x.1) = true then .error Panic.unexportedField else call x.2.toAny)) := by
  rw [typeCheckWith_struct]
  exact typeCheckFieldsWith_append_ro call [] fs ro

theorem firstFailing_all_nil (rs : List (Except Panic (Option Error)))
    (h : ∀ r ∈ rs, r = .ok none) : firstFailing rs = .ok none := by
  induction rs with
  | nil => rfl
  | cons r rs ih =>
    have hr : r = .ok none := h r (List.mem_cons_self _ _)
    subst hr
    simp only [firstFailing]
    exact ih (fun r hr => h r (List.mem_cons_of_mem _ hr))

theorem firstFailing_append (pre post : List (Except Panic (Option Error)))
    (r : Except Panic (Option Error)) (hpre : ∀ x ∈ pre, x = .ok none) (hr : r ≠ .ok none) :
    firstFailing (pre ++ r :: post) = r := by
  induction pre with
  | nil =>
    simp only [List.nil_append]
    match r, hr with
    | .ok none, hr => exact absurd rfl hr
    | .ok (some _), _ => rfl
    | .error _, _ => rfl
  | cons x pre ih =>
    have hx : x = .ok none := hpre x (List.mem_cons_self _ _)
    subst hx
    simp only [List.cons_append, firstFailing]
    exact ih (fun y hy => hpre y (List.mem_cons_of_mem _ hy))

/-- On an array with at least one element, `TypeCheck` is `TypeCheck` of the
element at index 0. -/
theorem TypeCheck_array_cons (k : Kind) (e : GoVal) (es : List GoVal) :
    TypeCheck (some (.array k (e :: es))) = TypeCheck e.toAny := by
  rw [TypeCheck_eq, typeCheck_eq_With, typeCheckWith_array_cons]

/-- The sub-values of a Value are strictly smaller than the Value. -/
theorem sizeOf_lt_of_mem_subValues {v : Value} {a : Any} (h : a ∈ subValues v) :
    sizeOf a < sizeOf v.val := by
  obtain ⟨val, ro⟩ := v
  rcases val with _ | g
  · simp [subValues] at h
  · cases g with
    | atom _ _ => simp [subValues] at h
    | iface _ => simp [subValues] at h
    | array k elems =>
      cases elems with
      | nil => simp [subValues] at h
      | cons e es =>
        simp only [subValues, List.mem_singleton] at h
        subst h
        have h2 := sizeOf_toAny_le e
        simp only [Option.some.sizeOf_spec, GoVal.array.sizeOf_spec, List.cons.sizeOf_spec]
        omega
    | struct fs =>
      simp only [subValues, List.mem_map] at h
      obtain ⟨x, hx, rfl⟩ := h
      obtain ⟨ex, f⟩ := x
      have h1 := List.sizeOf_lt_of_mem hx
      have h2 := sizeOf_toAny_le f
      simp only [Prod.mk.sizeOf_spec] at h1
      simp only [Option.some.sizeOf_spec, GoVal.struct.sizeOf_spec]
      omega

/-- Induction along the recursion of `TypeCheck`: a property holds of every
value when it holds of a value as soon as it holds of its sub-values. -/
theorem TypeCheck_induct {motive : Any → Prop}
    (step : ∀ a : Any, (∀ b ∈ subValues (ValueOf a), motive b) → motive a) (a : Any) :
    motive a := by
  generalize hn : sizeOf a = n
  induction n using Nat.strong_induction_on generalizing a with
  | _ n ih =>
    subst hn
    exact step a (fun b hb => ih _ (sizeOf_lt_of_mem_subValues hb) b rfl)

/-- The result of `typeCheckWith` depends on `call` through its values on the
sub-values only. -/
theorem typeCheckWith_congr (call call2 : Any → Except Panic (Option Error)) (v : Value)
    (h : ∀ a ∈ subValues v, call a = call2 a) :
    typeCheckWith call v = typeCheckWith call2 v := by
  obtain ⟨val, ro⟩ := v
  rcases val with _ | g
  · rw [typeCheckWith_of_typeOf_error call (typeOf_none ro),
      typeCheckWith_of_typeOf_error call2 (typeOf_none ro)]
  · cases g with
    | atom k d => rw [typeCheckWith_atom, typeCheckWith_atom]
    | iface d =>
      have ht : typeOf ⟨some (.iface d), ro⟩ = (TypeInvalid,
          some (Error.mk ("unsuppported type: " ++ sharpVString (KindString .Interface)))) := by
        rw [typeOf_some]
        rfl
      rw [typeCheckWith_of_typeOf_error call ht, typeCheckWith_of_typeOf_error call2 ht]
    | array k elems =>
      cases elems with
      | nil => rw [typeCheckWith_array_nil, typeCheckWith_array_nil]
      | cons e es =>
        rw [typeCheckWith_array_cons_ro, typeCheckWith_array_cons_ro,
          h e.toAny (by simp [subValues])]
    | struct fs =>
      rw [typeCheckWith_struct_firstFailing, typeCheckWith_struct_firstFailing]
      congr 1
      apply List.map_congr_left
      intro x hx
      rw [h x.2.toAny (by simp only [subValues, List.mem_map]; exact ⟨x, hx, rfl⟩)]

/-- A Value whose kind is numeric is classified as `TypeNumeric`. -/
theorem typeOf_of_kind_numeric (v : Value)
    (h : v.kind ∈ [Kind.Bool, Kind.Int, Kind.Int8, Kind.Int16, Kind.Int32, Kind.Int64,
      Kind.Uint, Kind.Uint8, Kind.Uint16, Kind.Uint32, Kind.Uint64, Kind.Uintptr,
      Kind.Float32, Kind.Float64, Kind.Complex64, Kind.Complex128]) :
    typeOf v = (TypeNumeric, none) := by
  obtain ⟨val, ro⟩ := v
  rcases val with _ | g
  · simp [Value.kind] at h
  · simp only [Value.kind] at h
    rw [typeOf_some]
    generalize g.kind = k at h
    cases k <;> first | rfl | simp at h

/-- A Value classified as `TypeNumeric` or `TypeUnsafePointer` is accepted
without any call. -/
theorem typeCheckWith_leaf (call : Any → Except Panic (Option Error)) (v : Value)
    (h : (typeOf v).1 = TypeNumeric ∨ (typeOf v).1 = TypeUnsafePointer) :
    typeCheckWith call v = .ok none := by
  obtain ⟨val, ro⟩ := v
  rcases val with _ | g
  · simp [typeOf_none] at h
  · rw [typeCheckWith]
    rw [typeOf_some] at h ⊢
    generalize g.kind = k at h
    cases k <;> simp at h ⊢

/-- A Value that the classifier rejects is accepted without any call. -/
theorem typeCheckWith_of_error (call : Any → Except Panic (Option Error)) (v : Value)
    (h : (typeOf v).2 ≠ none) : typeCheckWith call v = .ok none := by
  rcases hp : typeOf v with ⟨t, _ | e⟩
  · rw [hp] at h
    exact absurd rfl h
  · exact typeCheckWith_of_typeOf_error call hp

/-- C11 (the code departs from it): on an array of one string, whose first
element `TypeOf` rejects with a non-nil error, `TypeCheck` returns nil, not
that error. -/
theorem TypeCheck_array_first_unsupported_nil :
    (∃ e : Error, TypeOf (GoVal.toAny (.atom .String 0)) = (TypeInvalid, some e)) ∧
    TypeCheck (some (.array .String [.atom .String 0])) = .ok none := by
  refine ⟨⟨_, rfl⟩, ?_⟩
  rw [TypeCheck_array_cons]
  exact TypeCheck_atom _ _

/-- C12: for every input that `TypeOf` rejects (a value whose top-level kind
is unsupported, or the nil input), `TypeCheck` returns nil. -/
theorem TypeCheck_rejected_top_level_nil (a : Any) (h : (TypeOf a).2 ≠ none) :
    TypeCheck a = .ok none := by
  rw [TypeCheck_eq, typeCheck_eq_With]
  exact typeCheckWith_of_error _ _ h

theorem TypeCheck_rejected_top_level_nil_witness :
    ((TypeOf (some (.atom .Map 5))).2 ≠ none ∧ TypeCheck (some (.atom .Map 5)) = .ok none) ∧
    ((TypeOf none).2 ≠ none ∧ TypeCheck none = .ok none) :=
  ⟨⟨by decide, TypeCheck_rejected_top_level_nil _ (by decide)⟩,
    ⟨by decide, TypeCheck_rejected_top_level_nil _ (by decide)⟩⟩

/-- C13: for every array of length 0, whatever the kind of its element type,
`TypeCheck` returns nil, and it does so without a recursive call: the body
returns nil whatever function stands for the recursive call. -/
theorem TypeCheck_empty_array (k : Kind) :
    TypeCheck (some (.array k [])) = .ok none ∧
    ∀ call : Any → Except Panic (Option Error),
      typeCheckWith call (ValueOf (some (.array k []))) = .ok none := by
  refine ⟨?_, fun call => typeCheckWith_array_nil call k false⟩
  rw [TypeCheck_eq, typeCheck_eq_With]
  exact typeCheckWith_array_nil _ k false

/-- C14: for every array with at least one element whose first element,
as `TypeCheck` receives it, is of a numeric kind, `TypeCheck` returns nil,
whatever the elements at the indices from 1 on are. -/
theorem TypeCheck_array_first_numeric (k : Kind) (e : GoVal) (es : List GoVal)
    (h : (ValueOf e.toAny).kind ∈ [Kind.Bool, Kind.Int, Kind.Int8, Kind.Int16, Kind.Int32,
      Kind.Int64, Kind.Uint, Kind.Uint8, Kind.Uint16, Kind.Uint32, Kind.Uint64, Kind.Uintptr,
      Kind.Float32, Kind.Float64, Kind.Complex64, Kind.Complex128]) :
    TypeCheck (some (.array k (e :: es))) = .ok none := by
  rw [TypeCheck_array_cons, TypeCheck_eq, typeCheck_eq_With]
  exact typeCheckWith_leaf _ _ (Or.inl (by rw [typeOf_of_kind_numeric _ h]))

theorem TypeCheck_array_first_numeric_witness :
    (ValueOf (GoVal.toAny (.iface (some (.atom .Int 1))))).kind ∈ [Kind.Bool, Kind.Int,
      Kind.Int8, Kind.Int16, Kind.Int32, Kind.Int64, Kind.Uint, Kind.Uint8, Kind.Uint16,
      Kind.Uint32, Kind.Uint64, Kind.Uintptr, Kind.Float32, Kind.Float64, Kind.Complex64,
      Kind.Complex128] ∧
    (TypeOf (GoVal.toAny (.iface (some (.atom .String 0))))).2 ≠ none ∧
    TypeCheck (some (.array .Interface
      [.iface (some (.atom .Int 1)), .iface (some (.atom .String 0))])) = .ok none :=
  ⟨by decide, by decide, TypeCheck_array_first_numeric _ _ _ (by decide)⟩

/-- On a struct whose fields are all exported, `typeCheckWith` returns the
first result that is not nil among the results of `call` on the fields. -/
theorem typeCheckWith_struct_exported (call : Any → Except Panic (Option Error))
    (fs : List (Bool × GoVal)) (hex : ∀ x ∈ fs, x.1 = true) :
    typeCheckWith call (ValueOf (some (.struct fs))) =
      firstFailing (fs.map (fun x => call x.2.toAny)) := by
  rw [ValueOf, typeCheckWith_struct_firstFailing]
  congr 1
  apply List.map_congr_left
  intro x hx
  simp [hex x hx]

/-- C15, as stated, fails on a struct whose only field is an unexported int:
the check of the field value returns nil, so the first failing result among
the fields is nil, but `TypeCheck` on the struct panics in `Interface()`. -/
theorem TypeCheck_struct_unexported_field_panics :
    TypeCheck (GoVal.toAny (.atom .Int 0)) = .ok none ∧
    firstFailing ([(false, GoVal.atom .Int 0)].map (fun x => TypeCheck x.2.toAny)) = .ok none ∧
    TypeCheck (some (.struct [(false, .atom .Int 0)])) = .error Panic.unexportedField ∧
    TypeCheck (some (.struct [(false, .atom .Int 0)])) ≠
      firstFailing ([(false, GoVal.atom .Int 0)].map (fun x => TypeCheck x.2.toAny)) := by
  have h1 : TypeCheck (GoVal.toAny (.atom .Int 0)) = .ok none := TypeCheck_atom _ _
  have h2 : firstFailing ([(false, GoVal.atom .Int 0)].map (fun x => TypeCheck x.2.toAny))
      = .ok none := by
    simp only [List.map_cons, List.map_nil, h1, firstFailing]
  have h3 : TypeCheck (some (.struct [(false, .atom .Int 0)]))
      = .error Panic.unexportedField := by
    rw [TypeCheck_eq, typeCheck_eq_With, ValueOf, typeCheckWith_struct_firstFailing]
    simp [firstFailing]
  refine ⟨h1, h2, h3, ?_⟩
  rw [h2, h3]
  simp

/-- C15, amended: for every struct whose fields are all exported, the result
of `TypeCheck` is the first result, in declaration order, that is not nil
among the results of `TypeCheck` on the fields (a panic of the check of a
field counts as a result that is not nil), and nil when every such result is
nil.  The same holds of the body for every function `call` standing for the
recursive call, and the fields after the first failing one are not examined:
the result is that of the first failing field whatever follows it. -/
theorem TypeCheck_struct_first_failing (fs : List (Bool × GoVal))
    (hex : ∀ x ∈ fs, x.1 = true) :
    TypeCheck (some (.struct fs)) = firstFailing (fs.map (fun x => TypeCheck x.2.toAny)) ∧
    (∀ call : Any → Except Panic (Option Error),
      typeCheckWith call (ValueOf (some (.struct fs))) =
        firstFailing (fs.map (fun x => call x.2.toAny))) ∧
    (∀ (call : Any → Except Panic (Option Error)) (pre post : List (Bool × GoVal))
      (f : GoVal), fs = pre ++ (true, f) :: post →
      (∀ x ∈ pre, call x.2.toAny = .ok none) → call f.toAny ≠ .ok none →
      typeCheckWith call (ValueOf (some (.struct fs))) = call f.toAny) := by
  refine ⟨?_, fun call => typeCheckWith_struct_exported call fs hex, ?_⟩
  · rw [TypeCheck_eq, typeCheck_eq_With]
    exact typeCheckWith_struct_exported _ fs hex
  · intro call pre post f hfs hpre hf
    rw [typeCheckWith_struct_exported call fs hex, hfs, List.map_append, List.map_cons]
    apply firstFailing_append _ _ _ _ hf
    intro r hr
    obtain ⟨x, hx, rfl⟩ := List.mem_map.1 hr
    exact hpre x hx

theorem TypeCheck_struct_first_failing_witness :
    (∀ x ∈ [(true, GoVal.atom .Int 1), (true, GoVal.struct [(false, .atom .Int 2)]),
      (true, GoVal.atom .String 0)], x.1 = true) ∧
    TypeCheck (some (.struct [(true, .atom .Int 1), (true, .struct [(false, .atom .Int 2)]),
      (true, .atom .String 0)])) =
      firstFailing ([(true, GoVal.atom .Int 1), (true, GoVal.struct [(false, .atom .Int 2)]),
        (true, GoVal.atom .String 0)].map (fun x => TypeCheck x.2.toAny)) :=
  ⟨by decide, (TypeCheck_struct_first_failing _ (by decide)).1⟩

/-- C16: for every array with at least one element, the result of `TypeCheck`
is the result of `TypeCheck` on the element at index 0; it is the same for
every other choice of the remaining elements, of the length and of the element
type. -/
theorem TypeCheck_array_first_element_only (k : Kind) (e : GoVal) (es : List GoVal) :
    TypeCheck (some (.array k (e :: es))) = TypeCheck e.toAny ∧
    ∀ (k2 : Kind) (es2 : List GoVal),
      TypeCheck (some (.array k2 (e :: es2))) = TypeCheck (some (.array k (e :: es))) := by
  refine ⟨TypeCheck_array_cons k e es, fun k2 es2 => ?_⟩
  rw [TypeCheck_array_cons, TypeCheck_array_cons]

/-- C17: for every value that `TypeOf` classifies as `TypeNumeric` or
`TypeUnsafePointer`, `TypeCheck` returns nil, and it does so without a
recursive call: the body returns nil whatever function stands for the
recursive call. -/
theorem TypeCheck_leaf (a : Any)
    (h : (TypeOf a).1 = TypeNumeric ∨ (TypeOf a).1 = TypeUnsafePointer) :
    TypeCheck a = .ok none ∧
    ∀ call : Any → Except Panic (Option Error), typeCheckWith call (ValueOf a) = .ok none := by
  refine ⟨?_, fun call => typeCheckWith_leaf call _ h⟩
  rw [TypeCheck_eq, typeCheck_eq_With]
  exact typeCheckWith_leaf _ _ h

theorem TypeCheck_leaf_witness :
    ((TypeOf (some (.atom .Float64 3))).1 = TypeNumeric ∨
      (TypeOf (some (.atom .Float64 3))).1 = TypeUnsafePointer) ∧
    (TypeCheck (some (.atom .Float64 3)) = .ok none ∧
      ∀ call : Any → Except Panic (Option Error),
        typeCheckWith call (ValueOf (some (.atom .Float64 3))) = .ok none) :=
  ⟨by decide, TypeCheck_leaf _ (by decide)⟩

/-- The values on which `typeCheckWith` makes no call. -/
theorem subValues_eq_nil_of_base (v : Value)
    (h : (typeOf v).2 ≠ none ∨ (typeOf v).1 = TypeNumeric ∨ (typeOf v).1 = TypeUnsafePointer ∨
      v.Len = .ok 0 ∨ v.NumField = .ok 0) :
    subValues v = [] := by
  obtain ⟨val, ro⟩ := v
  rcases val with _ | g
  · rfl
  · cases g with
    | atom _ _ => rfl
    | iface _ => rfl
    | array k elems =>
      cases elems with
      | nil => rfl
      | cons e es =>
        rcases h with h | h | h | h | h
        · exact absurd rfl h
        · simp [typeOf_some, GoVal.kind] at h
        · simp [typeOf_some, GoVal.kind] at h
        · simp [Value.Len] at h
        · simp [Value.NumField] at h
    | struct fs =>
      cases fs with
      | nil => rfl
      | cons x fs =>
        rcases h with h | h | h | h | h
        · exact absurd rfl h
        · simp [typeOf_some, GoVal.kind] at h
        · simp [typeOf_some, GoVal.kind] at h
        · simp [Value.Len] at h
        · simp [Value.NumField] at h

/-- A function that satisfies the recursive equation of `TypeCheck` is
`TypeCheck`. -/
theorem TypeCheck_unique (F : Any → Except Panic (Option Error))
    (hF : ∀ a, F a = typeCheckWith F (ValueOf a)) (a : Any) : F a = TypeCheck a := by
  induction a using TypeCheck_induct with
  | step a ih =>
    rw [hF a, TypeCheck_eq, typeCheck_eq_With]
    exact typeCheckWith_congr F TypeCheck _ ih

/-- C18: `TypeCheck` is a total function that satisfies the recursive equation
of the source, and the only one; each recursive call of the body is made on a
sub-value (element 0 of a non-empty array, or a field of a struct), which is
strictly smaller than the value; there is no sub-value, and no call, at a
value that the classifier rejects (unsupported or invalid), at a numeric or
pointer leaf, at an empty array and at a struct without fields; and the field
loop stops when no field remains. -/
theorem TypeCheck_terminates :
    (∀ a : Any, TypeCheck a = typeCheckWith TypeCheck (ValueOf a)) ∧
    (∀ F : Any → Except Panic (Option Error),
      (∀ a, F a = typeCheckWith F (ValueOf a)) → ∀ a, F a = TypeCheck a) ∧
    (∀ (call call2 : Any → Except Panic (Option Error)) (v : Value),
      (∀ a ∈ subValues v, call a = call2 a) → typeCheckWith call v = typeCheckWith call2 v) ∧
    (∀ (v : Value) (a : Any), a ∈ subValues v → sizeOf a < sizeOf v.val) ∧
    (∀ v : Value,
      ((typeOf v).2 ≠ none ∨ (typeOf v).1 = TypeNumeric ∨ (typeOf v).1 = TypeUnsafePointer ∨
        v.Len = .ok 0 ∨ v.NumField = .ok 0) →
      subValues v = [] ∧
        ∀ call : Any → Except Panic (Option Error), typeCheckWith call v = .ok none) ∧
    (∀ (call : Any → Except Panic (Option Error)) (v : Value) (n i : Nat),
      n ≤ i → typeCheckFieldsWith call v n i = .ok none) := by
  refine ⟨fun a => ?_, TypeCheck_unique, typeCheckWith_congr,
    fun v a h => sizeOf_lt_of_mem_subValues h, fun v h => ?_, fun call v n i h => ?_⟩
  · rw [TypeCheck_eq, typeCheck_eq_With]
  · have hs := subValues_eq_nil_of_base v h
    refine ⟨hs, fun call => ?_⟩
    have hc : typeCheckWith call v = typeCheckWith (fun _ => .ok none) v :=
      typeCheckWith_congr _ _ v (by simp [hs])
    rw [hc]
    obtain ⟨val, ro⟩ := v
    rcases val with _ | g
    · exact typeCheckWith_of_typeOf_error _ (typeOf_none ro)
    · cases g with
      | atom k d => exact typeCheckWith_atom _ k d ro
      | iface d => exact typeCheckWith_of_error _ _ (by rw [typeOf_some]; simp [GoVal.kind])
      | array k elems =>
        cases elems with
        | nil => exact typeCheckWith_array_nil _ k ro
        | cons e es => simp [subValues] at hs
      | struct fs =>
        cases fs with
        | nil => rw [typeCheckWith_struct_firstFailing]; rfl
        | cons x fs => simp [subValues] at hs
  · rw [typeCheckFieldsWith_eq]
    have : ¬ i < n := by omega
    simp [this]

theorem TypeCheck_terminates_witness :
    sizeOf (GoVal.toAny (.iface (some (.atom .Int 1)))) <
      sizeOf (ValueOf (some (.array .Interface [.iface (some (.atom .Int 1))]))).val ∧
    subValues (ValueOf (some (.array .Int []))) = [] :=
  ⟨TypeCheck_terminates.2.2.2.1 _ _ (by simp [subValues, ValueOf]),
    (TypeCheck_terminates.2.2.2.2.1 (ValueOf (some (.array .Int [])))
      (Or.inr (Or.inr (Or.inr (Or.inl rfl))))).1⟩

/-- C19: no input makes `TypeCheck` return a non-nil error: on every input it
either returns nil or does not return (it panics). -/
theorem TypeCheck_never_returns_error (a : Any) :
    (∀ e : Error, TypeCheck a ≠ .ok (some e)) ∧
    (TypeCheck a = .ok none ∨ ∃ p : Panic, TypeCheck a = .error p) := by
  refine ⟨fun e => TypeCheck_ne_error a e, ?_⟩
  rcases h : TypeCheck a with p | r
  · exact Or.inr ⟨p, rfl⟩
  · rcases r with _ | e
    · exact Or.inl rfl
    · exact absurd h (TypeCheck_ne_error a e)

theorem firstFailing_nil_or_mem (rs : List (Except Panic (Option Error))) :
    firstFailing rs = .ok none ∨ firstFailing rs ∈ rs := by
  induction rs with
  | nil => exact Or.inl rfl
  | cons r rs ih =>
    match r with
    | .ok none =>
      simp only [firstFailing]
      exact ih.imp id (fun h => List.mem_cons_of_mem _ h)
    | .ok (some _) => exact Or.inr (List.mem_cons_self _ _)
    | .error _ => exact Or.inr (List.mem_cons_self _ _)

/-- The body of `typeCheck` raises no panic but the one of `Interface()` on a
read-only Value, as long as the calls on the sub-values raise no other. -/
theorem typeCheckWith_panic (call : Any → Except Panic (Option Error)) (v : Value)
    (hcall : ∀ a ∈ subValues v, ∀ p, call a = .error p → p = Panic.unexportedField)
    (p : Panic) (h : typeCheckWith call v = .error p) : p = Panic.unexportedField := by
  obtain ⟨val, ro⟩ := v
  rcases val with _ | g
  · rw [typeCheckWith_of_typeOf_error call (typeOf_none ro)] at h
    simp at h
  · cases g with
    | atom k d => rw [typeCheckWith_atom] at h; simp at h
    | iface d =>
      rw [typeCheckWith_of_error call _ (by rw [typeOf_some]; simp [GoVal.kind])] at h
      simp at h
    | array k elems =>
      cases elems with
      | nil => rw [typeCheckWith_array_nil] at h; simp at h
      | cons e es =>
        rw [typeCheckWith_array_cons_ro] at h
        cases ro with
        | true => simp at h; exact h.symm
        | false =>
          simp only [Bool.false_eq_true, if_false] at h
          exact hcall e.toAny (by simp [subValues]) p h
    | struct fs =>
      rw [typeCheckWith_struct_firstFailing] at h
      rcases firstFailing_nil_or_mem (fs.map (fun x =>
        if (ro || !x.1) = true then .error Panic.unexportedField else call x.2.toAny)) with h0 | hm
      · rw [h0] at h
        simp at h
      · rw [h] at hm
        obtain ⟨x, hx, hxe⟩ := List.mem_map.1 hm
        by_cases hro : (ro || !x.1) = true
        · simp only [hro, if_true, Except.error.injEq] at hxe
          exact hxe.symm
        · simp only [hro, if_false, Bool.false_eq_true] at hxe
          exact hcall x.2.toAny (by simp only [subValues, List.mem_map]; exact ⟨x, hx, rfl⟩) p hxe

theorem reachedExported_toAny (g : GoVal) : reachedExported g.toAny = g.reachedExported := by
  cases g with
  | iface d => cases d <;> simp [GoVal.toAny, reachedExported, GoVal.reachedExported]
  | atom _ _ => rfl
  | array _ _ => rfl
  | struct _ => rfl

theorem fieldsReachedExported_mem (fs : List (Bool × GoVal))
    (h : fieldsReachedExported fs = true) :
    ∀ x ∈ fs, x.1 = true ∧ x.2.reachedExported = true := by
  induction fs with
  | nil => simp
  | cons y fs ih =>
    obtain ⟨ex, f⟩ := y
    simp only [fieldsReachedExported, Bool.and_eq_true] at h
    intro x hx
    rcases List.mem_cons.1 hx with rfl | hx
    · exact ⟨h.1.1, h.1.2⟩
    · exact ih h.2 x hx

/-- C20: every structural access of `typeCheck` is guarded: no input makes
`TypeCheck`, or `typeCheck` on any Value, panic with a wrong-kind or an
out-of-range access (the only panic is that of `Interface()` on a value read
through an unexported field); and on every value in which every struct field
that the traversal reaches is exported, `TypeCheck` returns, and returns
nil. -/
theorem TypeCheck_accesses_guarded (a : Any) :
    (∀ p : Panic, TypeCheck a = .error p → p = Panic.unexportedField) ∧
    (∀ (ro : Bool) (p : Panic), typeCheck ⟨a, ro⟩ = .error p → p = Panic.unexportedField) ∧
    (reachedExported a = true → TypeCheck a = .ok none) := by
  have hpanic : ∀ b : Any, ∀ p : Panic, TypeCheck b = .error p → p = Panic.unexportedField := by
    intro b
    induction b using TypeCheck_induct with
    | step b ih =>
      intro p hp
      rw [TypeCheck_eq, typeCheck_eq_With] at hp
      exact typeCheckWith_panic TypeCheck _ ih p hp
  refine ⟨hpanic a, fun ro p hp => ?_, ?_⟩
  · rw [typeCheck_eq_With] at hp
    exact typeCheckWith_panic TypeCheck _ (fun b _ => hpanic b) p hp
  · induction a using TypeCheck_induct with
    | step a ih =>
      intro hex
      rw [TypeCheck_eq, typeCheck_eq_With]
      rcases a with _ | g
      · exact typeCheckWith_of_typeOf_error _ (typeOf_none false)
      · cases g with
        | atom k d => exact typeCheckWith_atom _ k d false
        | iface d =>
          exact typeCheckWith_of_error _ _ (by rw [ValueOf, typeOf_some]; simp [GoVal.kind])
        | array k elems =>
          cases elems with
          | nil => exact typeCheckWith_array_nil _ k false
          | cons e es =>
            rw [typeCheckWith_array_cons]
            apply ih e.toAny (by simp [subValues, ValueOf])
            rw [reachedExported_toAny]
            simpa [reachedExported, GoVal.reachedExported] using hex
        | struct fs =>
          have hfs := fieldsReachedExported_mem fs
            (by simpa [reachedExported, GoVal.reachedExported] using hex)
          rw [typeCheckWith_struct_exported _ fs (fun x hx => (hfs x hx).1)]
          apply firstFailing_all_nil
          intro r hr
          obtain ⟨x, hx, rfl⟩ := List.mem_map.1 hr
          apply ih x.2.toAny (by simp only [subValues, ValueOf, List.mem_map]; exact ⟨x, hx, rfl⟩)
          rw [reachedExported_toAny]
          exact (hfs x hx).2

theorem TypeCheck_accesses_guarded_witness :
    reachedExported (some (.struct [(true, .array .Struct [.struct [(true, .atom .Int 1)],
      .struct [(false, .atom .Int 2)]]), (true, .iface (some (.atom .String 0)))])) = true ∧
    TypeCheck (some (.struct [(true, .array .Struct [.struct [(true, .atom .Int 1)],
      .struct [(false, .atom .Int 2)]]), (true, .iface (some (.atom .String 0)))])) = .ok none :=
  ⟨by decide, (TypeCheck_accesses_guarded _).2.2 (by decide)⟩

end mmm
